import Mathlib

/-!
Shallow embedding of the activity session coordinator of the edubot
repository (Django app `activities`), covering:

* the Session record (`ChildActivity` in `activities/models.py`) with its
  derived `score` and `level`;
* the per-choice Attempt rows (`AttemptedModel` and its five subclasses
  `TouchBodyPartStats`, `MatchColorStats`, `FindNumberStats`,
  `FindImageStats`, `LearnWithButtonsStats`) with the attempt-number
  assignment and 3-attempt retention logic of `AttemptedModel.save`;
* the `stop_activity` view (`activities/views.py`): the timeout /
  result paths, the reconciliation of a result payload into Attempt
  rows and Session aggregates, and the transport actions it performs;
* the MQTT message handler (`MQTTClient.on_message` in
  `activities/mqtt_communication.py`);
* the raw-socket framing (`send_int` / `receive_int` in
  `activities/socket_communication.py`).

Modelling conventions: timestamps are naturals (an abstract clock);
Python floats are modelled by rationals; byte strings are lists of
naturals below 256; Python dicts (which preserve insertion order) are
association lists; a Python function that raises is modelled by
`Option` or, where an exception interrupts a sequence of field
assignments, by returning the partially-updated state that the
assignments executed so far produce.
-/

namespace EduBot

/-! ### Session records: `ChildActivity` (activities/models.py) -/

/-- The Session row: `ChildActivity` in `activities/models.py`.
One row per (child, activity) pair; the child/activity foreign keys are
left implicit because every operation modelled here acts on the rows of
a single (child, activity) pair.  `start_activity` / `stop_activity`
are nullable timestamps (`DateTimeField(null=True)`). -/
structure ChildActivity where
  total_right_answers : ℕ
  total_wrong_answers : ℕ
  start_activity : Option ℕ
  stop_activity : Option ℕ
deriving DecidableEq, Repr

/-- `ChildActivity.score` (models.py lines 187-200):
`(right/(right+wrong))*100` when there are answers, else `0.0`. -/
def ChildActivity.score (ca : ChildActivity) : ℚ :=
  if ca.total_right_answers + ca.total_wrong_answers > 0 then
    ((ca.total_right_answers : ℚ) /
      ((ca.total_right_answers : ℚ) + (ca.total_wrong_answers : ℚ))) * 100
  else 0.0

/-- `ChildActivity.level` (models.py lines 202-211). -/
def ChildActivity.level (ca : ChildActivity) : String :=
  if ca.score > 90 then "Excellent"
  else if 70 ≤ ca.score ∧ ca.score ≤ 90 then "Good"
  else if 50 ≤ ca.score ∧ ca.score < 70 then "Average"
  else "Needs Improvement"

/-! ### Attempt rows: `AttemptedModel` subclasses (activities/models.py)

The five stats models (`TouchBodyPartStats`, `MatchColorStats`,
`FindNumberStats`, `FindImageStats`, `LearnWithButtonsStats`) are
identical up to the name of the choice column (`body_part`, `color`,
`number`, `image_type`, `button`) and the choice catalogue; `StatsRow`
models one row of any of them, with `choice` standing for that column.
The table is the list of rows belonging to one `child_activity`
(every query in `AttemptedModel.save` filters on `child_activity`). -/

structure StatsRow where
  attempt : ℕ
  choice : String
  right_answers : ℕ
  wrong_answers : ℕ
deriving DecidableEq, Repr

/-- `TouchBodyPartStats.BODY_PART_CHOICES` (stored values). -/
def BODY_PART_CHOICES : List String :=
  ["left_hand", "right_hand", "left_bumper", "right_bumper"]

/-- `MatchColorStats.COLOR_CHOICES` (stored values). -/
def COLOR_CHOICES : List String := ["red", "yellow", "green", "blue", "black"]

/-- `FindNumberStats.NUMBER_CHOICES` (stored values). -/
def NUMBER_CHOICES : List String :=
  ["1", "2", "3", "4", "5", "6", "7", "8", "9", "10"]

/-- `FindImageStats.IMAGE_CHOICES` (stored values). -/
def IMAGE_CHOICES : List String := ["fruits", "shapes", "vehicles"]

/-- `LearnWithButtonsStats.BUTTON_CHOICES` (stored values). -/
def BUTTON_CHOICES : List String := ["horse", "cat", "dog"]

/-- `StatsRow.score`: the `score` property shared verbatim by all five
stats models (e.g. `TouchBodyPartStats.score`, models.py 297-310). -/
def StatsRow.score (row : StatsRow) : ℚ :=
  if row.right_answers + row.wrong_answers > 0 then
    ((row.right_answers : ℚ) /
      ((row.right_answers : ℚ) + (row.wrong_answers : ℚ))) * 100
  else 0.0

/-- `StatsRow.level`: the `level` property shared verbatim by all five
stats models. -/
def StatsRow.level (row : StatsRow) : String :=
  if row.score > 90 then "Excellent"
  else if 70 ≤ row.score ∧ row.score ≤ 90 then "Good"
  else if 50 ≤ row.score ∧ row.score < 70 then "Average"
  else "Needs Improvement"

/-- `self.__class__.objects.filter(child_activity=...).order_by('-attempt').first()`:
the attempt number of the row with the largest attempt number, `none`
for an empty table. -/
def latestAttempt : List StatsRow → Option ℕ
  | [] => none
  | r :: rs =>
    match latestAttempt rs with
    | none => some r.attempt
    | some m => some (max r.attempt m)

/-- The largest attempt number in the table, 0 for an empty table. -/
def maxAttempt (rows : List StatsRow) : ℕ := (latestAttempt rows).getD 0

/-- `objects.filter(child_activity=..., attempt=a).count()`. -/
def countAtAttempt (rows : List StatsRow) (a : ℕ) : ℕ :=
  (rows.filter (fun r => r.attempt = a)).length

/-- The attempt number `AttemptedModel.save` (models.py 231-250) assigns
to a new row: the latest attempt (1 for an empty table), plus one when
`_is_new_attempt_group` holds, i.e. when the number of rows at the
latest attempt equals the number of defined choices (`count() ==
len(CHOICES)` in each subclass, models.py 290-295 etc.).
`nc` is the length of the activity's choice catalogue. -/
def assignAttempt (nc : ℕ) (rows : List StatsRow) : ℕ :=
  let a := (latestAttempt rows).getD 1
  if countAtAttempt rows a = nc then a + 1 else a

/-- `AttemptedModel.save` for a new object (models.py 231-250): assign
the attempt number; when the table is non-empty and the assigned number
exceeds 3, delete every row at attempt `assigned - 3`; then insert the
new row. -/
def saveRow (nc : ℕ) (rows : List StatsRow) (c : String) (ri wr : ℕ) :
    List StatsRow :=
  let a := assignAttempt nc rows
  let kept := if rows ≠ [] ∧ 3 < a then
      rows.filter (fun r => r.attempt ≠ a - 3)
    else rows
  kept ++ [⟨a, c, ri, wr⟩]

/-- A sequence of `save` calls on an initially empty table; each element
of `saves` is (choice, right_answers, wrong_answers). -/
def applySaves (nc : ℕ) (saves : List (String × ℕ × ℕ)) : List StatsRow :=
  saves.foldl (fun rows s => saveRow nc rows s.1 s.2.1 s.2.2) []

/-- The set of distinct attempt numbers retained in the table. -/
def attemptSet (rows : List StatsRow) : Finset ℕ :=
  (rows.map StatsRow.attempt).toFinset

/-! ### The stop flow: `stop_activity` (activities/views.py 159-262) -/

/-- The result payload `stop_activity` expects in
`mqtt_client.performance_data`: two mappings keyed by the choice
dimension.  Python dicts preserve insertion order, so each mapping is an
association list. -/
structure PerformanceData where
  right_answers : List (String × ℕ)
  wrong_answers : List (String × ℕ)
deriving DecidableEq, Repr

/-- `d.get(k, 0)` on an association list. -/
def lookupD (l : List (String × ℕ)) (k : String) : ℕ :=
  ((l.find? (fun p => p.1 = k)).map Prod.snd).getD 0

/-- `sum(d.values())`. -/
def sumVals (l : List (String × ℕ)) : ℕ := (l.map Prod.snd).sum

/-- The per-activity dispatch of `stop_activity` (views.py 211-256):
activity ids 1..5 select the five stats tables; the value is the length
of the selected table's choice catalogue (what `_is_new_attempt_group`
compares against); an unrecognized id selects no table. -/
def choiceCountOf (activity_id : ℕ) : Option ℕ :=
  match activity_id with
  | 1 => some BODY_PART_CHOICES.length
  | 2 => some COLOR_CHOICES.length
  | 3 => some NUMBER_CHOICES.length
  | 4 => some IMAGE_CHOICES.length
  | 5 => some BUTTON_CHOICES.length
  | _ => none

/-- The persistent state `stop_activity` touches: the Session row for
the (child, activity) pair (absent until first created) and the
activity's Attempt table rows for that Session. -/
structure SessionState where
  session : Option ChildActivity
  rows : List StatsRow
deriving DecidableEq, Repr

/-- `ChildActivity.objects.get_or_create(child_id=..., activity_id=...)`
with no defaults (views.py 201-204): the existing row, or a fresh row
with the model's field defaults. -/
def get_or_create (s : Option ChildActivity) : ChildActivity :=
  s.getD { total_right_answers := 0, total_wrong_answers := 0,
           start_activity := none, stop_activity := none }

/-- The database effect of `stop_activity` (views.py 159-262), given the
result of the 10-second wait loop: `none` models the timeout (no result
arrived; the view returns at line 198 via the early redirect), `some pd`
models `mqtt_client.performance_data` having arrived.  On a result:
get-or-create the Session row, set its stop timestamp to now and its
aggregates to the sums of the payload's two mappings, then create one
Attempt row per key of `right_answers`, with `wrong_answers.get(key, 0)`
(views.py 200-256); each creation runs `AttemptedModel.save`. -/
def stop_activity (activity_id now : ℕ) (st : SessionState)
    (result : Option PerformanceData) : SessionState :=
  match result with
  | none => st
  | some pd =>
    let ca := get_or_create st.session
    let ca := { ca with
      stop_activity := some now,
      total_right_answers := sumVals pd.right_answers,
      total_wrong_answers := sumVals pd.wrong_answers }
    let rows := match choiceCountOf activity_id with
      | some nc =>
          pd.right_answers.foldl
            (fun rows kv => saveRow nc rows kv.1 kv.2 (lookupD pd.wrong_answers kv.1))
            st.rows
      | none => st.rows
    { session := some ca, rows := rows }

/-- The transport calls `stop_activity` makes, in program order. -/
inductive MQTTAction where
  | subscribeAct (topic : String)
  | publishAct (topic payload : String)
  | resetAct
  | unsubscribeAct (topic : String)
deriving DecidableEq, Repr

/-- The sequence of transport calls `stop_activity` performs before
returning (views.py 177-262): subscribe to the performance topic,
publish "0" on the stop topic, then — only when a result arrived —
`reset_performance_data()` followed by `unsubscribe`; the timeout path
returns at line 198 without further transport calls. -/
def stopActions (activity_id : ℕ) (result : Option PerformanceData) :
    List MQTTAction :=
  [MQTTAction.subscribeAct ("activity/performance/" ++ toString activity_id),
   MQTTAction.publishAct ("activity/stop/" ++ toString activity_id) "0"] ++
  match result with
  | none => []
  | some _ =>
      [MQTTAction.resetAct,
       MQTTAction.unsubscribeAct ("activity/performance/" ++ toString activity_id)]

def isUnsubscribeCall : MQTTAction → Bool
  | MQTTAction.unsubscribeAct _ => true
  | _ => false

def isResetCall : MQTTAction → Bool
  | MQTTAction.resetAct => true
  | _ => false

/-! ### MQTT message handler (activities/mqtt_communication.py) -/

/-- `str.startswith(p)`: executable character-level prefix test
(Lean's `String.startsWith` is not kernel-reducible). -/
def isPrefixChars : List Char → List Char → Bool
  | [], _ => true
  | _ :: _, [] => false
  | p :: ps, c :: cs => p = c && isPrefixChars ps cs

def startsWithPy (s p : String) : Bool := isPrefixChars p.toList s.toList

/-- `str.split(sep)` for a one-character separator, character-level. -/
def splitChars (sep : Char) : List Char → List (List Char)
  | [] => [[]]
  | c :: cs =>
    let r := splitChars sep cs
    if c = sep then [] :: r
    else match r with
      | [] => [[c]]
      | h :: t => (c :: h) :: t

/-- Python `int()` on an unsigned decimal literal; `none` models
`ValueError`. -/
def parseNatChars (cs : List Char) : Option ℕ :=
  if cs = [] then none
  else cs.foldl (fun acc c =>
    match acc with
    | none => none
    | some n => if c.isDigit then some (n * 10 + (c.toNat - '0'.toNat)) else none)
    (some 0)

/-- Python `int()` on a decimal literal with optional leading minus. -/
def parseIntChars (cs : List Char) : Option ℤ :=
  match cs with
  | '-' :: rest => (parseNatChars rest).map (fun n => -(n : ℤ))
  | _ => (parseNatChars cs).map (fun n => (n : ℤ))

/-- The observable state of `MQTTClient` (mqtt_communication.py 23-31):
these are the only data attributes `__init__` creates; in particular
there is no `performance_data` attribute. -/
structure MQTTState where
  performance_data_received : Bool
  correct_answers : ℤ
  incorrect_answers : ℤ
  average_time : ℚ
deriving DecidableEq, Repr

/-- `MQTTClient.__init__` field values. -/
def initMQTTState : MQTTState :=
  { performance_data_received := false, correct_answers := 0,
    incorrect_answers := 0, average_time := 0.0 }

/-- Python `float()` on a plain decimal literal (optionally signed,
digits with at most one decimal point), as a rational; `none` models
`ValueError`. -/
def parseFloatPy (cs : List Char) : Option ℚ :=
  let core := fun (t : List Char) =>
    match splitChars '.' t with
    | [a] => (parseNatChars a).map (fun n => (n : ℚ))
    | [a, b] =>
      match parseNatChars a, parseNatChars b with
      | some n, some f => some ((n : ℚ) + (f : ℚ) / 10 ^ b.length)
      | _, _ => none
    | _ => none
  match cs with
  | '-' :: rest => (core rest).map Neg.neg
  | _ => core cs

/-- `MQTTClient.on_message` (mqtt_communication.py 58-77).  For a topic
starting with "activity/performance/" it splits the payload on commas,
assigns `int(data[0])`, `int(data[1])` to the two counters (Python's
tuple unpacking binds neither on a `ValueError`), then assigns
`float(data[2])` and finally sets the flag; an exception at the int
step leaves the state unchanged, an exception at the float step (bad
literal or fewer than three fields) leaves the already-assigned
counters but not the flag.  Any other topic takes no branch. -/
def on_message (st : MQTTState) (topic payload : String) : MQTTState :=
  if startsWithPy topic "activity/performance/" then
    let data := splitChars ',' payload.toList
    match data with
    | a :: b :: _ =>
      match parseIntChars a, parseIntChars b with
      | some c, some i =>
        match data[2]? with
        | some s =>
          match parseFloatPy s with
          | some t =>
            { performance_data_received := true, correct_answers := c,
              incorrect_answers := i, average_time := t }
          | none => { st with correct_answers := c, incorrect_answers := i }
        | none => { st with correct_answers := c, incorrect_answers := i }
      | _, _ => st
    | _ => st
  else st

/-! ### Raw-socket framing (activities/socket_communication.py) -/

/-- `struct.pack('!I', n)`: four big-endian bytes (for `n < 2^32`). -/
def packUIntBE (n : ℕ) : List ℕ :=
  [n / 2 ^ 24 % 256, n / 2 ^ 16 % 256, n / 2 ^ 8 % 256, n % 256]

/-- `struct.unpack('!i', bytes)[0]`: four big-endian bytes read as a
signed 32-bit integer. -/
def unpackSignedBE (b3 b2 b1 b0 : ℕ) : ℤ :=
  let u : ℕ := b3 * 2 ^ 24 + b2 * 2 ^ 16 + b1 * 2 ^ 8 + b0
  if u < 2 ^ 31 then (u : ℤ) else (u : ℤ) - 2 ^ 32

/-- The decimal digits of a natural number, most significant first
(fuel-structured so that it is kernel-reducible). -/
def natDigitsAux : ℕ → ℕ → List Char
  | 0, _ => []
  | fuel + 1, n =>
    if n < 10 then [Char.ofNat ('0'.toNat + n)]
    else natDigitsAux fuel (n / 10) ++ [Char.ofNat ('0'.toNat + n % 10)]

def natToChars (n : ℕ) : List Char := natDigitsAux (n + 1) n

/-- Python `str()` of an integer: optional minus sign, then decimal
digits. -/
def strOfIntPy (n : ℤ) : List Char :=
  if n < 0 then '-' :: natToChars n.natAbs else natToChars n.natAbs

/-- `SocketCommunication.send_int` (socket_communication.py 50-63): the
bytes written to the wire for integer `data` — the 4-byte big-endian
length of `str(data)`, the 3-byte ASCII tag "TXT", then the UTF-8 bytes
of the decimal string. -/
def send_int (data : ℤ) : List ℕ :=
  let number_str := strOfIntPy data
  let data_bytes := number_str.map Char.toNat
  packUIntBE data_bytes.length
    ++ ("TXT".toList.map Char.toNat)
    ++ data_bytes

/-- `SocketCommunication.receive_int` (socket_communication.py 65-76):
`recv(4)` then `struct.unpack('!i', data)`; `none` models the empty
read and the `struct.error` on a short read. -/
def receive_int (stream : List ℕ) : Option ℤ :=
  match stream with
  | b3 :: b2 :: b1 :: b0 :: _ => some (unpackSignedBE b3 b2 b1 b0)
  | _ => none

/-! ## Concrete states used by the claim theorems -/

def examplePD : PerformanceData :=
  { right_answers := [("red", 5), ("blue", 2)], wrong_answers := [("red", 1)] }

def emptyState : SessionState := { session := none, rows := [] }

def timeoutDemoSession : ChildActivity :=
  { total_right_answers := 3, total_wrong_answers := 1,
    start_activity := some 20, stop_activity := some 5 }

def timeoutDemoState : SessionState :=
  { session := some timeoutDemoSession, rows := [⟨1, "red", 3, 1⟩] }

/-- The rolling-window shape of a reachable Attempt table: every row's
attempt number is at least 1 and within 2 of the maximum. -/
def WindowInv (rows : List StatsRow) : Prop :=
  ∀ r ∈ rows, 1 ≤ r.attempt ∧ maxAttempt rows - 2 ≤ r.attempt

/-- In a reachable Attempt table every attempt number of the retained
window is inhabited: advancing from k to k+1 requires rows at k, and
the retention delete only ever removes the number that falls out of the
window. -/
def FullGroups (rows : List StatsRow) : Prop :=
  ∀ k, 1 ≤ k → maxAttempt rows - 2 ≤ k → k ≤ maxAttempt rows →
    ∃ r ∈ rows, r.attempt = k

/-- Save sequence for the C3 witness: three saves of the same choice
with a one-choice catalogue, driving the attempt number to 3. -/
def c3saves : List (String × ℕ × ℕ) := [("x", 0, 0), ("x", 0, 0), ("x", 0, 0)]

/-- Rows reached by four saves whose choices are not in any catalogue
(payload keys are arbitrary strings): all land in attempt group 1. -/
def c4Rows : List StatsRow :=
  applySaves 4 [("a", 0, 0), ("b", 0, 0), ("c", 0, 0), ("d", 0, 0)]

/-- Rows for the C4-amended witness: two colors of attempt group 1. -/
def c4DemoRows : List StatsRow := [⟨1, "red", 5, 1⟩, ⟨1, "blue", 2, 0⟩]

/-! ## Helper lemmas on the attempt machinery -/

theorem maxAttempt_nil : maxAttempt [] = 0 := rfl

theorem maxAttempt_cons (r : StatsRow) (rs : List StatsRow) :
    maxAttempt (r :: rs) = max r.attempt (maxAttempt rs) := by
  cases hl : latestAttempt rs with
  | none => simp [maxAttempt, latestAttempt, hl]
  | some m => simp [maxAttempt, latestAttempt, hl]

theorem attempt_le_maxAttempt {rows : List StatsRow} {r : StatsRow}
    (h : r ∈ rows) : r.attempt ≤ maxAttempt rows := by
  induction rows with
  | nil => cases h
  | cons x xs ih =>
    rw [maxAttempt_cons]
    rcases List.mem_cons.mp h with rfl | hx
    · exact Nat.le_max_left _ _
    · exact le_trans (ih hx) (Nat.le_max_right _ _)

theorem maxAttempt_le {rows : List StatsRow} {b : ℕ}
    (h : ∀ r ∈ rows, r.attempt ≤ b) : maxAttempt rows ≤ b := by
  induction rows with
  | nil => exact Nat.zero_le _
  | cons x xs ih =>
    rw [maxAttempt_cons]
    exact max_le (h x (List.mem_cons_self _ _))
      (ih fun r hr => h r (List.mem_cons_of_mem _ hr))

theorem exists_maxAttempt {rows : List StatsRow} (h : rows ≠ []) :
    ∃ r ∈ rows, r.attempt = maxAttempt rows := by
  induction rows with
  | nil => exact absurd rfl h
  | cons x xs ih =>
    rw [maxAttempt_cons]
    by_cases hxs : xs = []
    · subst hxs
      exact ⟨x, List.mem_cons_self _ _, by rw [maxAttempt_nil]; omega⟩
    · obtain ⟨r, hr, hattempt⟩ := ih hxs
      rcases Nat.le_total (maxAttempt xs) x.attempt with hle | hle
      · exact ⟨x, List.mem_cons_self _ _, (Nat.max_eq_left hle).symm⟩
      · exact ⟨r, List.mem_cons_of_mem _ hr,
          by rw [hattempt, Nat.max_eq_right hle]⟩

theorem latestAttempt_eq_some {rows : List StatsRow} (h : rows ≠ []) :
    latestAttempt rows = some (maxAttempt rows) := by
  cases rows with
  | nil => exact absurd rfl h
  | cons x xs =>
    simp only [maxAttempt, latestAttempt]
    cases hl : latestAttempt xs <;> simp [Option.getD]

theorem maxAttempt_append_single (rows : List StatsRow) (x : StatsRow) :
    maxAttempt (rows ++ [x]) = max (maxAttempt rows) x.attempt := by
  induction rows with
  | nil =>
    simp [maxAttempt_cons, maxAttempt_nil]
  | cons y ys ih =>
    simp only [List.cons_append, maxAttempt_cons, ih]
    exact (Nat.max_assoc _ _ _).symm

theorem assignAttempt_nil {nc : ℕ} (hnc : 0 < nc) : assignAttempt nc [] = 1 := by
  simp only [assignAttempt, latestAttempt, Option.getD, countAtAttempt,
    List.filter_nil, List.length_nil]
  rw [if_neg]
  omega

theorem assignAttempt_of_ne {nc : ℕ} {rows : List StatsRow} (h : rows ≠ []) :
    assignAttempt nc rows =
      if countAtAttempt rows (maxAttempt rows) = nc then maxAttempt rows + 1
      else maxAttempt rows := by
  simp only [assignAttempt, latestAttempt_eq_some h, Option.getD_some]

theorem saveRow_eq_of_adv3 {nc : ℕ} {rows : List StatsRow} (c : String)
    (ri wr : ℕ) (h : rows ≠ [] ∧ 3 < assignAttempt nc rows) :
    saveRow nc rows c ri wr =
      rows.filter (fun r => r.attempt ≠ assignAttempt nc rows - 3)
        ++ [⟨assignAttempt nc rows, c, ri, wr⟩] := by
  simp only [saveRow, if_pos h]

theorem saveRow_eq_of_not {nc : ℕ} {rows : List StatsRow} (c : String)
    (ri wr : ℕ) (h : ¬(rows ≠ [] ∧ 3 < assignAttempt nc rows)) :
    saveRow nc rows c ri wr = rows ++ [⟨assignAttempt nc rows, c, ri, wr⟩] := by
  simp only [saveRow, if_neg h]

theorem saveRow_maxAttempt (nc : ℕ) (rows : List StatsRow) (c : String)
    (ri wr : ℕ) :
    maxAttempt (saveRow nc rows c ri wr) = assignAttempt nc rows := by
  have hma : maxAttempt rows ≤ assignAttempt nc rows := by
    by_cases h : rows = []
    · subst h
      rw [maxAttempt_nil]
      exact Nat.zero_le _
    · rw [assignAttempt_of_ne h]
      split_ifs <;> omega
  have hkept : ∀ r ∈ (if rows ≠ [] ∧ 3 < assignAttempt nc rows then
      rows.filter (fun r => r.attempt ≠ assignAttempt nc rows - 3) else rows),
      r.attempt ≤ assignAttempt nc rows := by
    intro r hr
    have hrrows : r ∈ rows := by
      split at hr
      · exact (List.mem_filter.mp hr).1
      · exact hr
    exact le_trans (attempt_le_maxAttempt hrrows) hma
  simp only [saveRow]
  rw [maxAttempt_append_single]
  exact Nat.max_eq_right (maxAttempt_le hkept)

theorem saveRow_preserves {nc : ℕ} (hnc : 0 < nc) {rows : List StatsRow}
    (hW : WindowInv rows) (hF : FullGroups rows) (c : String) (ri wr : ℕ) :
    WindowInv (saveRow nc rows c ri wr) ∧ FullGroups (saveRow nc rows c ri wr) := by
  have hmaxnew := saveRow_maxAttempt nc rows c ri wr
  by_cases hrows : rows = []
  · subst hrows
    have ha : assignAttempt nc [] = 1 := assignAttempt_nil hnc
    have heq : saveRow nc [] c ri wr = [⟨assignAttempt nc [], c, ri, wr⟩] :=
      saveRow_eq_of_not c ri wr (by simp)
    rw [ha] at heq
    rw [heq]
    have hmax1 : maxAttempt [(⟨1, c, ri, wr⟩ : StatsRow)] = 1 := by
      rw [maxAttempt_cons, maxAttempt_nil]
      rfl
    constructor
    · intro r hr
      rw [List.mem_singleton] at hr
      subst hr
      refine ⟨le_refl 1, ?_⟩
      rw [hmax1]
      exact Nat.zero_le _
    · intro k hk1 hk2 hk3
      rw [hmax1] at hk3
      have hk : k = 1 := by omega
      exact ⟨⟨1, c, ri, wr⟩, List.mem_singleton_self _, hk.symm⟩
  · have hm1 : 1 ≤ maxAttempt rows := by
      obtain ⟨r, hr, hrm⟩ := exists_maxAttempt hrows
      have := (hW r hr).1
      omega
    have haor : assignAttempt nc rows = maxAttempt rows ∨
        assignAttempt nc rows = maxAttempt rows + 1 := by
      rw [assignAttempt_of_ne hrows]
      split_ifs
      · right; rfl
      · left; rfl
    by_cases hcond : rows ≠ [] ∧ 3 < assignAttempt nc rows
    · have heq := saveRow_eq_of_adv3 c ri wr hcond
      rw [heq] at hmaxnew ⊢
      constructor
      · intro r hr
        rcases List.mem_append.mp hr with hr1 | hr2
        · have hmem := List.mem_filter.mp hr1
          have hne3 : r.attempt ≠ assignAttempt nc rows - 3 := by
            simpa using hmem.2
          have hWr := hW r hmem.1
          rw [hmaxnew]
          rcases haor with he | he <;>
            exact ⟨hWr.1, by omega⟩
        · rw [List.mem_singleton] at hr2
          subst hr2
          rw [hmaxnew]
          constructor
          · show 1 ≤ assignAttempt nc rows
            omega
          · show assignAttempt nc rows - 2 ≤ assignAttempt nc rows
            omega
      · intro k hk1 hk2 hk3
        rw [hmaxnew] at hk2 hk3
        by_cases hka : k = assignAttempt nc rows
        · exact ⟨⟨assignAttempt nc rows, c, ri, wr⟩,
            List.mem_append_right _ (List.mem_singleton_self _), hka.symm⟩
        · have hbounds : 1 ≤ k ∧ maxAttempt rows - 2 ≤ k ∧ k ≤ maxAttempt rows := by
            rcases haor with he | he <;> omega
          obtain ⟨r, hr, hrk⟩ := hF k hbounds.1 hbounds.2.1 hbounds.2.2
          refine ⟨r, List.mem_append_left _ (List.mem_filter.mpr ⟨hr, ?_⟩), hrk⟩
          simp only [hrk, decide_eq_true_eq]
          omega
    · have ha3 : assignAttempt nc rows ≤ 3 := by
        rcases not_and_or.mp hcond with h1 | h2
        · exact absurd hrows h1
        · omega
      have heq := saveRow_eq_of_not c ri wr hcond
      rw [heq] at hmaxnew ⊢
      constructor
      · intro r hr
        rcases List.mem_append.mp hr with hr1 | hr2
        · have hWr := hW r hr1
          rw [hmaxnew]
          exact ⟨hWr.1, by omega⟩
        · rw [List.mem_singleton] at hr2
          subst hr2
          rw [hmaxnew]
          constructor
          · show 1 ≤ assignAttempt nc rows
            rcases haor with he | he <;> omega
          · show assignAttempt nc rows - 2 ≤ assignAttempt nc rows
            omega
      · intro k hk1 hk2 hk3
        rw [hmaxnew] at hk2 hk3
        by_cases hka : k = assignAttempt nc rows
        · exact ⟨⟨assignAttempt nc rows, c, ri, wr⟩,
            List.mem_append_right _ (List.mem_singleton_self _), hka.symm⟩
        · have hbounds : 1 ≤ k ∧ maxAttempt rows - 2 ≤ k ∧ k ≤ maxAttempt rows := by
            rcases haor with he | he <;> omega
          obtain ⟨r, hr, hrk⟩ := hF k hbounds.1 hbounds.2.1 hbounds.2.2
          exact ⟨r, List.mem_append_left _ hr, hrk⟩

theorem applySaves_inv (nc : ℕ) (hnc : 0 < nc)
    (saves : List (String × ℕ × ℕ)) :
    WindowInv (applySaves nc saves) ∧ FullGroups (applySaves nc saves) := by
  suffices h : ∀ rows, WindowInv rows → FullGroups rows →
      WindowInv (saves.foldl (fun rows s => saveRow nc rows s.1 s.2.1 s.2.2) rows)
      ∧ FullGroups
          (saves.foldl (fun rows s => saveRow nc rows s.1 s.2.1 s.2.2) rows) by
    refine h [] (fun r hr => absurd hr (List.not_mem_nil r)) ?_
    intro k hk1 hk2 hk3
    rw [maxAttempt_nil] at hk3
    omega
  induction saves with
  | nil => exact fun rows hW hF => ⟨hW, hF⟩
  | cons s t ih =>
    intro rows hW hF
    have hp := saveRow_preserves hnc hW hF s.1 s.2.1 s.2.2
    exact ih _ hp.1 hp.2

theorem attemptSet_card_le {rows : List StatsRow} (hW : WindowInv rows) :
    (attemptSet rows).card ≤ 3 := by
  have hsub : attemptSet rows ⊆
      Finset.Icc (maxAttempt rows - 2) (maxAttempt rows) := by
    intro x hx
    rw [attemptSet, List.mem_toFinset, List.mem_map] at hx
    obtain ⟨r, hr, rfl⟩ := hx
    rw [Finset.mem_Icc]
    exact ⟨(hW r hr).2, attempt_le_maxAttempt hr⟩
  have hcard := Finset.card_le_card hsub
  rw [Nat.card_Icc] at hcard
  omega

/-! ## Claim theorems -/

/-- C1, counterexample.  The claim says a `stop()` that times out still
sets the Session's stop timestamp to the current time.  In the code the
timeout path returns at views.py line 198 before the Session row is
touched: at `now = 100`, a session whose stop timestamp is `some 5`
keeps it, and no Attempt rows are created. -/
theorem C1_timeout_counterexample :
    stop_activity 2 100 timeoutDemoState none = timeoutDemoState
  ∧ (get_or_create (stop_activity 2 100 timeoutDemoState none).session).stop_activity
      = some 5
  ∧ some 5 ≠ some (100 : ℕ) := by decide

/-- C1, amended: a `stop()` that receives no result within the timeout
creates zero new Attempt rows and leaves the whole persistent state —
including the Session's stop timestamp — unchanged; the stop timestamp
is not set to the current time. -/
theorem C1_timeout_amended (activity_id now : ℕ) (st : SessionState) :
    stop_activity activity_id now st none = st := rfl

/-- C2, code-bug evidence.  `MQTTClient.on_message` parses the payload
of a result topic as positional comma-separated values — `int(data[0])`,
`int(data[1])`, `float(data[2])` — into three scalar attributes, and
sets `performance_data_received`; it never constructs the
`right_answers`/`wrong_answers` mappings and the client has no
`performance_data` attribute for `stop_activity` to read.  The
JSON-shaped payload the claim (and `stop_activity`) expect fails the
`int()` parse and is dropped with no state change. -/
theorem C2_on_message_divergence :
    (on_message initMQTTState "activity/performance/2" "3,1,2.5").performance_data_received
      = true
  ∧ (on_message initMQTTState "activity/performance/2" "3,1,2.5").correct_answers = 3
  ∧ (on_message initMQTTState "activity/performance/2" "3,1,2.5").incorrect_answers = 1
  ∧ (on_message initMQTTState "activity/performance/2" "3,1,2.5").average_time = 5 / 2
  ∧ on_message initMQTTState "activity/performance/2"
      "\x7b\"right_answers\": \x7b\"red\": 5, \"blue\": 2\x7d, \"wrong_answers\": \x7b\"red\": 1\x7d\x7d"
      = initMQTTState := by
  refine ⟨by decide, by decide, by decide, ?_, rfl⟩
  have h : (on_message initMQTTState "activity/performance/2" "3,1,2.5").average_time
      = ((2 : ℕ) : ℚ) + ((5 : ℕ) : ℚ) / 10 ^ 1 := rfl
  rw [h]; norm_num

/-- C5, counterexample.  The claim says unsubscribe is called exactly
once per `stop()` on both the result path and the timeout path; on the
timeout path the view returns at views.py line 198 without calling
unsubscribe (or clearing the buffered result) at all. -/
theorem C5_unsubscribe_counterexample :
    (stopActions 2 none).countP isUnsubscribeCall = 0
  ∧ (stopActions 2 none).countP isResetCall = 0 := by decide

/-- C5, amended: on the result-arrived path `stop()` clears the
transport's buffered result and then unsubscribes, each exactly once and
in that order, before returning; on the timeout path it neither
unsubscribes nor clears the buffer. -/
theorem C5_unsubscribe_amended (activity_id : ℕ) (pd : PerformanceData) :
    stopActions activity_id (some pd) =
      [MQTTAction.subscribeAct ("activity/performance/" ++ toString activity_id),
       MQTTAction.publishAct ("activity/stop/" ++ toString activity_id) "0",
       MQTTAction.resetAct,
       MQTTAction.unsubscribeAct ("activity/performance/" ++ toString activity_id)]
  ∧ (stopActions activity_id (some pd)).countP isUnsubscribeCall = 1
  ∧ (stopActions activity_id (some pd)).countP isResetCall = 1
  ∧ (stopActions activity_id none).countP isUnsubscribeCall = 0
  ∧ (stopActions activity_id none).countP isResetCall = 0 := by
  refine ⟨rfl, ?_, ?_, ?_, ?_⟩ <;> rfl

/-- C6: on the color activity (activity id 2), the payload
`right_answers = [red 5, blue 2]`, `wrong_answers = [red 1]` produces
exactly the two Attempt rows (red, 5, 1) and (blue, 2, 0) — the missing
`wrong_answers` entry for blue defaulting to 0 — and Session aggregates
`total_right = 7`, `total_wrong = 1`. -/
theorem C6_reconciler_example :
    (stop_activity 2 100 emptyState (some examplePD)).rows =
      [⟨1, "red", 5, 1⟩, ⟨1, "blue", 2, 0⟩]
  ∧ (stop_activity 2 100 emptyState (some examplePD)).session =
      some { total_right_answers := 7, total_wrong_answers := 1,
             start_activity := none, stop_activity := some 100 } := by decide

/-- C9, counterexample.  `send_int(5)` writes the 4-byte length of the
string "5", the tag "TXT" and the ASCII digit; `receive_int` reads only
the first 4 bytes as a signed big-endian integer, so the round trip
returns 1 (the string length), not 5. -/
theorem C9_roundtrip_counterexample :
    receive_int (send_int 5) = some 1
  ∧ receive_int (send_int 5) ≠ some 5 := by decide

/-- C9, amended: integers are sent as a 4-byte big-endian length
followed by a 3-byte "TXT" tag and the decimal ASCII string — not as
untagged native 4-byte values — so a `receive_int` on the bytes of
`send_int(n)` yields the length of `str(n)`, not `n`. -/
theorem C9_roundtrip_amended (n : ℤ)
    (h : (strOfIntPy n).length < 2 ^ 31) :
    receive_int (send_int n) = some ((strOfIntPy n).length : ℤ) := by
  set L := (strOfIntPy n).length with hL
  have hmap : ((strOfIntPy n).map Char.toNat).length = L := by
    simp [hL]
  simp only [send_int, packUIntBE, hmap, List.cons_append, List.nil_append,
    receive_int, unpackSignedBE]
  have hu : L / 2 ^ 24 % 256 * 2 ^ 24 + L / 2 ^ 16 % 256 * 2 ^ 16 +
      L / 2 ^ 8 % 256 * 2 ^ 8 + L % 256 = L := by omega
  rw [hu, if_pos h]

/-- C9, witness for the amended round-trip at n = 12 (`str(12)` has
length 2). -/
theorem C9_roundtrip_amended_witness :
    receive_int (send_int 12) = some 2 := by
  have h := C9_roundtrip_amended 12 (by decide)
  exact h.trans (by decide)

/-- The count-based completion heuristic of `_is_new_attempt_group`
agrees with "every catalogue choice has a row at attempt `m`" exactly
when the table satisfies the database uniqueness constraint
(`unique_together` on (child_activity, attempt, choice)) and every
stored choice value belongs to the catalogue. -/
theorem count_eq_length_iff (choices : List String) (hnd : choices.Nodup)
    (rows : List StatsRow)
    (huniq : (rows.map (fun r => (r.attempt, r.choice))).Nodup)
    (hcat : ∀ r ∈ rows, r.choice ∈ choices) (m : ℕ) :
    countAtAttempt rows m = choices.length ↔
      ∀ ch ∈ choices, ∃ r ∈ rows, r.attempt = m ∧ r.choice = ch := by
  have hsubl : (rows.filter (fun r => r.attempt = m)).Sublist rows :=
    List.filter_sublist _
  have hpairs :
      ((rows.filter (fun r => r.attempt = m)).map
        (fun r => (r.attempt, r.choice))).Nodup :=
    (hsubl.map _).nodup huniq
  have hatM_nodup : (rows.filter (fun r => r.attempt = m)).Nodup :=
    hpairs.of_map _
  have hinj : ∀ x ∈ rows.filter (fun r => r.attempt = m),
      ∀ y ∈ rows.filter (fun r => r.attempt = m),
      x.choice = y.choice → x = y := by
    intro x hx y hy hxy
    have hxm : x.attempt = m := by
      have := (List.mem_filter.mp hx).2
      simpa using this
    have hym : y.attempt = m := by
      have := (List.mem_filter.mp hy).2
      simpa using this
    exact List.inj_on_of_nodup_map hpairs hx hy
      (by rw [hxm, hym, hxy])
  have hchoice_nodup :
      ((rows.filter (fun r => r.attempt = m)).map StatsRow.choice).Nodup :=
    hatM_nodup.map_on hinj
  have hScard :
      ((rows.filter (fun r => r.attempt = m)).map StatsRow.choice).toFinset.card
        = countAtAttempt rows m := by
    rw [List.toFinset_card_of_nodup hchoice_nodup, List.length_map]
    rfl
  have hSsub :
      ((rows.filter (fun r => r.attempt = m)).map StatsRow.choice).toFinset
        ⊆ choices.toFinset := by
    intro x hx
    rw [List.mem_toFinset, List.mem_map] at hx
    obtain ⟨r, hr, rfl⟩ := hx
    rw [List.mem_toFinset]
    exact hcat r (List.mem_filter.mp hr).1
  have hCcard : choices.toFinset.card = choices.length :=
    List.toFinset_card_of_nodup hnd
  constructor
  · intro hcount ch hch
    have heq :
        ((rows.filter (fun r => r.attempt = m)).map StatsRow.choice).toFinset
          = choices.toFinset :=
      Finset.eq_of_subset_of_card_le hSsub (by rw [hScard, hCcard, hcount])
    have hchS : ch ∈
        ((rows.filter (fun r => r.attempt = m)).map StatsRow.choice).toFinset := by
      rw [heq, List.mem_toFinset]
      exact hch
    rw [List.mem_toFinset, List.mem_map] at hchS
    obtain ⟨r, hr, hrc⟩ := hchS
    have hmf := List.mem_filter.mp hr
    exact ⟨r, hmf.1, by simpa using hmf.2, hrc⟩
  · intro hall
    have hsub2 : choices.toFinset ⊆
        ((rows.filter (fun r => r.attempt = m)).map StatsRow.choice).toFinset := by
      intro ch hch
      rw [List.mem_toFinset] at hch
      obtain ⟨r, hr, hrm, hrc⟩ := hall ch hch
      rw [List.mem_toFinset, List.mem_map]
      exact ⟨r, List.mem_filter.mpr ⟨hr, by simpa using hrm⟩, hrc⟩
    have heq := Finset.Subset.antisymm hSsub hsub2
    calc countAtAttempt rows m
        = ((rows.filter (fun r => r.attempt = m)).map StatsRow.choice).toFinset.card :=
          hScard.symm
      _ = choices.toFinset.card := by rw [heq]
      _ = choices.length := hCcard

/-- C3: starting from an empty Attempt table, any sequence of
`AttemptedModel.save` calls leaves at most 3 distinct attempt numbers
retained; and whenever a save advances the attempt number past 3, the
rows of attempt `assigned − 3` — which exist and form the oldest
retained attempt number — are all deleted by that save. -/
theorem C3_attempt_retention (nc : ℕ) (hnc : 0 < nc)
    (saves : List (String × ℕ × ℕ)) :
    (attemptSet (applySaves nc saves)).card ≤ 3
  ∧ ∀ (c : String) (ri wr : ℕ),
      maxAttempt (applySaves nc saves) < assignAttempt nc (applySaves nc saves) →
      3 < assignAttempt nc (applySaves nc saves) →
      ((∃ r ∈ applySaves nc saves,
          r.attempt = assignAttempt nc (applySaves nc saves) - 3)
        ∧ (∀ r ∈ applySaves nc saves,
            assignAttempt nc (applySaves nc saves) - 3 ≤ r.attempt)
        ∧ ∀ r ∈ saveRow nc (applySaves nc saves) c ri wr,
            r.attempt ≠ assignAttempt nc (applySaves nc saves) - 3) := by
  obtain ⟨hW, hF⟩ := applySaves_inv nc hnc saves
  refine ⟨attemptSet_card_le hW, ?_⟩
  intro c ri wr hadv h3
  have hne : applySaves nc saves ≠ [] := by
    intro hnil
    rw [hnil] at h3
    rw [assignAttempt_nil hnc] at h3
    omega
  have hm1 : 1 ≤ maxAttempt (applySaves nc saves) := by
    obtain ⟨r, hr, hrm⟩ := exists_maxAttempt hne
    have := (hW r hr).1
    omega
  have haor : assignAttempt nc (applySaves nc saves)
        = maxAttempt (applySaves nc saves)
      ∨ assignAttempt nc (applySaves nc saves)
        = maxAttempt (applySaves nc saves) + 1 := by
    rw [assignAttempt_of_ne hne]
    split_ifs
    · right; rfl
    · left; rfl
  have hadv1 : assignAttempt nc (applySaves nc saves)
      = maxAttempt (applySaves nc saves) + 1 := by
    rcases haor with he | he
    · omega
    · exact he
  refine ⟨?_, ?_, ?_⟩
  · obtain ⟨r, hr, hrk⟩ :=
      hF (maxAttempt (applySaves nc saves) - 2) (by omega) (by omega) (by omega)
    exact ⟨r, hr, by omega⟩
  · intro r hr
    have := (hW r hr).2
    omega
  · intro r hr
    rw [saveRow_eq_of_adv3 c ri wr ⟨hne, h3⟩] at hr
    rcases List.mem_append.mp hr with h1 | h2
    · have hmem := List.mem_filter.mp h1
      simpa using hmem.2
    · rw [List.mem_singleton] at h2
      subst h2
      show assignAttempt nc (applySaves nc saves)
        ≠ assignAttempt nc (applySaves nc saves) - 3
      omega

/-- C3, witness: with a one-choice catalogue, three completed saves put
the table at attempts 1..3; the next save assigns attempt 4 (> 3,
advancing) and deletes the rows of attempt 1, the oldest retained. -/
theorem C3_attempt_retention_witness :
    (∃ r ∈ applySaves 1 c3saves,
        r.attempt = assignAttempt 1 (applySaves 1 c3saves) - 3)
  ∧ (∀ r ∈ applySaves 1 c3saves,
        assignAttempt 1 (applySaves 1 c3saves) - 3 ≤ r.attempt)
  ∧ ∀ r ∈ saveRow 1 (applySaves 1 c3saves) "x" 0 0,
        r.attempt ≠ assignAttempt 1 (applySaves 1 c3saves) - 3 :=
  (C3_attempt_retention 1 (by decide) c3saves).2 "x" 0 0 (by decide) (by decide)

/-- C4, counterexample.  The claim ties advancing to "every defined
choice value of that activity already has a row at that number", but
`_is_new_attempt_group` only compares the row COUNT at the latest
attempt with the catalogue size.  Four saves whose choices are outside
the body-part catalogue (choice values are payload keys; the database
does not restrict them to the catalogue) reach a table whose four rows
sit at attempt 1; the next save is assigned attempt 2 = max + 1 even
though no defined body-part choice has a row at attempt 1. -/
theorem C4_assignment_counterexample :
    maxAttempt c4Rows = 1
  ∧ assignAttempt BODY_PART_CHOICES.length c4Rows = 2
  ∧ ¬ ∀ ch ∈ BODY_PART_CHOICES, ∃ r ∈ c4Rows, r.attempt = 1 ∧ r.choice = ch := by
  decide

/-- C4, amended: provided the table satisfies the database uniqueness
constraint on (attempt, choice) and every stored choice value belongs
to the activity's catalogue, a new save is assigned the session's
current maximum attempt number, or the maximum plus one exactly when
every defined choice value already has a row at that maximum; and the
assigned attempt number never decreases from one save to the next. -/
theorem C4_assignment_amended (choices : List String) (hnd : choices.Nodup)
    (rows : List StatsRow) (hne : rows ≠ [])
    (huniq : (rows.map (fun r => (r.attempt, r.choice))).Nodup)
    (hcat : ∀ r ∈ rows, r.choice ∈ choices) :
    ((∀ ch ∈ choices, ∃ r ∈ rows, r.attempt = maxAttempt rows ∧ r.choice = ch) →
        assignAttempt choices.length rows = maxAttempt rows + 1)
  ∧ (¬(∀ ch ∈ choices, ∃ r ∈ rows, r.attempt = maxAttempt rows ∧ r.choice = ch) →
        assignAttempt choices.length rows = maxAttempt rows)
  ∧ ∀ (nc : ℕ) (rows2 : List StatsRow) (c : String) (ri wr : ℕ),
      assignAttempt nc rows2 ≤ assignAttempt nc (saveRow nc rows2 c ri wr) := by
  have hiff := count_eq_length_iff choices hnd rows huniq hcat (maxAttempt rows)
  refine ⟨fun hall => ?_, fun hnall => ?_, ?_⟩
  · rw [assignAttempt_of_ne hne, if_pos (hiff.mpr hall)]
  · rw [assignAttempt_of_ne hne, if_neg (fun hc => hnall (hiff.mp hc))]
  · intro nc rows2 c ri wr
    have hmax := saveRow_maxAttempt nc rows2 c ri wr
    have hne2 : saveRow nc rows2 c ri wr ≠ [] := by
      simp [saveRow]
    rw [assignAttempt_of_ne hne2, hmax]
    split_ifs <;> omega

/-- C4, witness for the amended rule on a color table holding two of
the five colors at attempt 1: the group is incomplete, so the next
save keeps attempt 1 = max, and assignment is monotone. -/
theorem C4_assignment_amended_witness :
    ((∀ ch ∈ COLOR_CHOICES,
        ∃ r ∈ c4DemoRows, r.attempt = maxAttempt c4DemoRows ∧ r.choice = ch) →
      assignAttempt COLOR_CHOICES.length c4DemoRows = maxAttempt c4DemoRows + 1)
  ∧ (¬(∀ ch ∈ COLOR_CHOICES,
        ∃ r ∈ c4DemoRows, r.attempt = maxAttempt c4DemoRows ∧ r.choice = ch) →
      assignAttempt COLOR_CHOICES.length c4DemoRows = maxAttempt c4DemoRows)
  ∧ ∀ (nc : ℕ) (rows2 : List StatsRow) (c : String) (ri wr : ℕ),
      assignAttempt nc rows2 ≤ assignAttempt nc (saveRow nc rows2 c ri wr) :=
  C4_assignment_amended COLOR_CHOICES (by decide) c4DemoRows (by decide)
    (by decide) (by decide)

/-- A Session row holding only the two aggregate counters (timestamps
absent), used to exhibit concrete score/level values. -/
def mkCA (r w : ℕ) : ChildActivity :=
  { total_right_answers := r, total_wrong_answers := w,
    start_activity := none, stop_activity := none }

/-- C7: at Session level and at Attempt level alike, the score is 0.0
when right + wrong = 0 and `100 * right / (right + wrong)` otherwise,
and the two formulas agree on equal counters. -/
theorem C7_score_formula :
    (∀ ca : ChildActivity,
      (ca.total_right_answers + ca.total_wrong_answers = 0 → ca.score = 0)
      ∧ (ca.total_right_answers + ca.total_wrong_answers ≠ 0 →
          ca.score = 100 * (ca.total_right_answers : ℚ) /
            ((ca.total_right_answers : ℚ) + (ca.total_wrong_answers : ℚ))))
  ∧ (∀ row : StatsRow,
      (row.right_answers + row.wrong_answers = 0 → row.score = 0)
      ∧ (row.right_answers + row.wrong_answers ≠ 0 →
          row.score = 100 * (row.right_answers : ℚ) /
            ((row.right_answers : ℚ) + (row.wrong_answers : ℚ))))
  ∧ ∀ (ca : ChildActivity) (row : StatsRow),
      ca.total_right_answers = row.right_answers →
      ca.total_wrong_answers = row.wrong_answers →
      ca.score = row.score := by
  refine ⟨fun ca => ⟨fun h => ?_, fun h => ?_⟩,
          fun row => ⟨fun h => ?_, fun h => ?_⟩, fun ca row h1 h2 => ?_⟩
  · simp only [ChildActivity.score, h]
    norm_num
  · have hpos : 0 < ca.total_right_answers + ca.total_wrong_answers :=
      Nat.pos_of_ne_zero h
    simp only [ChildActivity.score, if_pos hpos]
    ring
  · simp only [StatsRow.score, h]
    norm_num
  · have hpos : 0 < row.right_answers + row.wrong_answers :=
      Nat.pos_of_ne_zero h
    simp only [StatsRow.score, if_pos hpos]
    ring
  · simp only [ChildActivity.score, StatsRow.score, h1, h2]

/-- C7, witness: at (0, 0) the Session score is 0; at (7, 3) it is
`100 * 7 / (7 + 3)`. -/
theorem C7_score_formula_witness :
    (mkCA 0 0).score = 0
  ∧ (mkCA 7 3).score =
      100 * (((mkCA 7 3).total_right_answers : ℕ) : ℚ) /
        ((((mkCA 7 3).total_right_answers : ℕ) : ℚ) +
          (((mkCA 7 3).total_wrong_answers : ℕ) : ℚ)) :=
  ⟨(C7_score_formula.1 (mkCA 0 0)).1 rfl,
   (C7_score_formula.1 (mkCA 7 3)).2 (by decide)⟩

/-- C8: the level buckets of the Session score: "Excellent" above 90,
"Good" on [70, 90], "Average" on [50, 70), "Needs Improvement" below
50; the boundary scores 91, 90, 70, 69.9, 50, 49.9 (realized by
concrete right/wrong counters) land in the claimed buckets. -/
theorem C8_level_boundaries :
    (∀ ca : ChildActivity,
      (ca.score > 90 → ca.level = "Excellent")
      ∧ (70 ≤ ca.score ∧ ca.score ≤ 90 → ca.level = "Good")
      ∧ (50 ≤ ca.score ∧ ca.score < 70 → ca.level = "Average")
      ∧ (ca.score < 50 → ca.level = "Needs Improvement"))
  ∧ ((mkCA 91 9).score = 91 ∧ (mkCA 91 9).level = "Excellent")
  ∧ ((mkCA 9 1).score = 90 ∧ (mkCA 9 1).level = "Good")
  ∧ ((mkCA 7 3).score = 70 ∧ (mkCA 7 3).level = "Good")
  ∧ ((mkCA 699 301).score = 699 / 10 ∧ (mkCA 699 301).level = "Average")
  ∧ ((mkCA 1 1).score = 50 ∧ (mkCA 1 1).level = "Average")
  ∧ ((mkCA 499 501).score = 499 / 10 ∧
      (mkCA 499 501).level = "Needs Improvement") := by
  refine ⟨fun ca => ⟨fun h => ?_, fun h => ?_, fun h => ?_, fun h => ?_⟩,
          ?_, ?_, ?_, ?_, ?_, ?_⟩
  · rw [ChildActivity.level, if_pos h]
  · rw [ChildActivity.level, if_neg (by exact not_lt.mpr h.2), if_pos h]
  · rw [ChildActivity.level, if_neg (by push_neg; linarith [h.2]),
      if_neg (by push_neg; intro hc; exact absurd hc (not_le.mpr h.2)),
      if_pos h]
  · rw [ChildActivity.level, if_neg (by push_neg; linarith),
      if_neg (by push_neg; intro hc; linarith),
      if_neg (by push_neg; intro hc; linarith)]
  all_goals constructor <;> norm_num [mkCA, ChildActivity.level, ChildActivity.score]

/-- C8, witness: counters (2, 1) give score 200/3 ∈ [50, 70), hence
level "Average". -/
theorem C8_level_boundaries_witness :
    (mkCA 2 1).level = "Average" :=
  (C8_level_boundaries.1 (mkCA 2 1)).2.2.1
    (by norm_num [mkCA, ChildActivity.score])

/-- C10: an incoming message whose topic does not start with
"activity/performance/" takes no branch of `on_message` and leaves the
client state — flag, both counters, average_time — unchanged; and the
only way `performance_data_received` is set to true is a message on a
performance topic. -/
theorem C10_non_performance_frame :
    (∀ (st : MQTTState) (topic payload : String),
      startsWithPy topic "activity/performance/" = false →
      on_message st topic payload = st)
  ∧ ∀ (st : MQTTState) (topic payload : String),
      st.performance_data_received = false →
      (on_message st topic payload).performance_data_received = true →
      startsWithPy topic "activity/performance/" = true := by
  constructor
  · intro st topic payload h
    simp [on_message, h]
  · intro st topic payload hf htrue
    by_cases hc : startsWithPy topic "activity/performance/" = true
    · exact hc
    · exfalso
      rw [Bool.not_eq_true] at hc
      rw [show on_message st topic payload = st by simp [on_message, hc]] at htrue
      rw [hf] at htrue
      exact Bool.false_ne_true htrue

/-- C10, witness: a child-name broadcast at a freshly initialized client
is a no-op. -/
theorem C10_non_performance_frame_witness :
    on_message initMQTTState "child/name" "Sam" = initMQTTState :=
  C10_non_performance_frame.1 initMQTTState "child/name" "Sam" (by decide)

end EduBot
